import Mathlib

/-!
Shallow embedding of the hexagon-tessellation core of the repository
(`apps/spatial_materials.py`, together with the `geom_disassembly`
dispatch of `apps/disassembly.py` that it calls), and proofs about it.

Coordinates are modelled as exact real numbers.  Python's `round(x, 4)`
is modelled as rounding `x * 10 ^ 4` to the nearest integer; Python's
round-half-to-even tie-breaking can differ only at exact ties, which do
not occur at any value these proofs evaluate.

Loops (`while True:` in the source) are modelled with an explicit fuel
argument; a result of `none` means the loop performed that many
iterations without reaching its `break`.  A statement of the form
`∃ fuel, (… fuel).isSome` therefore says the loop terminates, and
`∀ fuel, … = none` says it does not.

Python exceptions are modelled with `Except PyErr`: subscripting the
`None` that `geom_disassembly` returns for an unknown response type
raises `TypeError`, and `list[-1]` / `list.pop(0)` on an empty list
raises `IndexError`.
-/

noncomputable section

open Real

/-- A planar coordinate (`shapely.Point` restricted to 2D). -/
abbrev Point : Type := ℝ × ℝ

/-- A polygon, identified with the coordinate sequence of its exterior
ring (`poly.exterior.coords`), closing point included. -/
abbrev Hexagon : Type := List Point

/-- One horizontal row of hexagons. -/
abbrev Row : Type := List Hexagon

/-- Python `max` over a list of numbers (call sites never pass `[]`). -/
def listMax : List ℝ → ℝ
  | [] => 0
  | x :: xs => xs.foldl max x

/-- Python `min` over a list of numbers (call sites never pass `[]`). -/
def listMin : List ℝ → ℝ
  | [] => 0
  | x :: xs => xs.foldl min x

/-- `shapely.affinity.translate(poly, xoff, yoff)`. -/
def translateHex (l : Hexagon) (dx dy : ℝ) : Hexagon :=
  l.map (fun p => (p.1 + dx, p.2 + dy))

/-- `Hexagons.__calc_x_max`: the largest x over the exterior coords. -/
def xMaxOf (l : Hexagon) : ℝ := listMax (l.map Prod.fst)

/-- `Hexagons.__calc_y_min`: the smallest y over the exterior coords. -/
def yMinOf (l : Hexagon) : ℝ := listMin (l.map Prod.snd)

/-- `point.distance(other)`: Euclidean distance. -/
def ptDist (p q : Point) : ℝ := Real.sqrt ((p.1 - q.1) ^ 2 + (p.2 - q.2) ^ 2)

/-- Twice the signed shoelace sum of a closed coordinate ring. -/
def shoelace : List Point → ℝ
  | p :: q :: rest => (p.1 * q.2 - q.1 * p.2) + shoelace (q :: rest)
  | _ => 0

/-- Numerator sum of the x coordinate of a polygon's area centroid. -/
def centroidSumX : List Point → ℝ
  | p :: q :: rest => (p.1 + q.1) * (p.1 * q.2 - q.1 * p.2) + centroidSumX (q :: rest)
  | _ => 0

/-- Numerator sum of the y coordinate of a polygon's area centroid. -/
def centroidSumY : List Point → ℝ
  | p :: q :: rest => (p.2 + q.2) * (p.1 * q.2 - q.1 * p.2) + centroidSumY (q :: rest)
  | _ => 0

/-- `poly.centroid`: the area centroid of the polygon. -/
def polyCentroid (ring : List Point) : Point :=
  (centroidSumX ring / (3 * shoelace ring), centroidSumY ring / (3 * shoelace ring))

/-- Python `round(x, 4)`. -/
def round4 (x : ℝ) : ℝ := ((round (x * 10000) : ℤ) : ℝ) / 10000

/-- The side length computed in `Hexagons._regular_hexagon`:
`round(math.sqrt(square_metre / (1.5 * math.sqrt(3))), 4)`.

`Real.sqrt` agrees with `math.sqrt` on nonnegative arguments, which is
every argument the constructions below evaluate it at except a
negative `square_metre` (i.e. a negative hectare); on a negative
argument `math.sqrt` raises `ValueError`, a path this total function
cannot express — it is modelled separately by `mathSqrt` / `sideLenE`,
and statements about negative hectares use those. -/
def sideLen (squareMetre : ℝ) : ℝ :=
  round4 (Real.sqrt (squareMetre / (1.5 * Real.sqrt 3)))

/-- `math.radians(angle)`. -/
def rad (angle : ℝ) : ℝ := angle * Real.pi / 180

/-- The angles produced by `range(0, 420, 60)` — note there are seven of
them, 360 included. -/
def hexAngles : List ℝ := [0, 60, 120, 180, 240, 300, 360]

/-- The list `h_vertices` built by `Hexagons._regular_hexagon`. -/
def hexVertsRaw (squareMetre centerX centerY : ℝ) : List Point :=
  hexAngles.map (fun angle =>
    (centerX + sideLen squareMetre * Real.sin (rad angle),
     centerY + sideLen squareMetre * Real.cos (rad angle)))

/-- Ring closure performed by `shapely.Polygon`: if the coordinate list
does not end at its first point, the first point is appended. -/
def closeRing (ps : List Point) : List Point :=
  match ps with
  | [] => []
  | p :: _ => if ps.getLast? = some p then ps else ps ++ [p]

/-- `Hexagons._regular_hexagon(center_x, center_y)` as the exterior ring
of the constructed `shapely.Polygon`. -/
def hexRing (squareMetre centerX centerY : ℝ) : Hexagon :=
  closeRing (hexVertsRaw squareMetre centerX centerY)

/-- Python keys as used by the `funcs` dictionaries in
`Disassemblies`: the dictionaries are keyed by `int`, while the
tessellation call sites pass the `str` `'point'`. -/
inductive PyKey : Type where
  | pint : ℤ → PyKey
  | pstr : String → PyKey
deriving DecidableEq

/-- The ten handler methods the `funcs` dictionary of
`Disassemblies.geom_disassembly` can dispatch to. -/
inductive RespTag : Type where
  | pointsFrom
  | xyzFrom
  | xYZFrom
  | wktFrom
  | wkbFrom
  | mergedPointsFrom
  | mergedXyzFrom
  | mergedXYZFrom
  | mergedWktFrom
  | mergedWkbFrom
deriving DecidableEq

/-- The `funcs` dictionary of `Disassemblies.geom_disassembly`:
integer response types `0`-`9` mapped to handlers. -/
def responseFuncs : List (PyKey × RespTag) :=
  [(PyKey.pint 0, RespTag.pointsFrom),
   (PyKey.pint 1, RespTag.xyzFrom),
   (PyKey.pint 2, RespTag.xYZFrom),
   (PyKey.pint 3, RespTag.wktFrom),
   (PyKey.pint 4, RespTag.wkbFrom),
   (PyKey.pint 5, RespTag.mergedPointsFrom),
   (PyKey.pint 6, RespTag.mergedXyzFrom),
   (PyKey.pint 7, RespTag.mergedXYZFrom),
   (PyKey.pint 8, RespTag.mergedWktFrom),
   (PyKey.pint 9, RespTag.mergedWkbFrom)]

/-- Python `dict.get(key)`: `None` when the key is absent. -/
def dictGet {α : Type} : List (PyKey × α) → PyKey → Option α
  | [], _ => none
  | kv :: rest, k => if kv.1 = k then some kv.2 else dictGet rest k

/-- Values a successful `geom_disassembly` can produce.  Response type
`0` on a polygon yields `PolyParts(shell, holes)` (the shell being the
full exterior coordinate ring as points); the other nine response kinds
produce serialized forms (xyz tuples, wkt, wkb, merged variants) that
the tessellation module never requests, abstracted here by their tag. -/
inductive PyObject : Type where
  | polyParts : List Point → List (List Point) → PyObject
  | otherResp : RespTag → PyObject

/-- The argument `'point'` that every `geom_disassembly` call in
`spatial_materials.py` passes as `response_type`. -/
def pointKey : PyKey := PyKey.pstr ("point")

/-- Application of a dispatched handler to a (hole-free) polygon. -/
def applyResp (tag : RespTag) (geom : Hexagon) : PyObject :=
  match tag with
  | RespTag.pointsFrom => PyObject.polyParts geom []
  | t => PyObject.otherResp t

/-- `geom_disassembly(geom, response_type)`: the `funcs` dictionary is
looked up with the given response type; an absent key logs an error and
returns `None` (the `repair_and_disassemble` wrapper only rewrites the
geometry argument, never the response type, so it is irrelevant here). -/
def geomDisassembly (geom : Hexagon) (responseType : PyKey) : Option PyObject :=
  match dictGet responseFuncs responseType with
  | none => none
  | some tag => some (applyResp tag geom)

/-- The Python exceptions reachable in this module — `TypeError` from
subscripting `None`, `IndexError` from `list[-1]` / `pop(0)` on an
empty list, `ValueError` from `math.sqrt` on a negative argument —
plus the `InvalidArgument` kind that the specification postulates. -/
inductive PyErr : Type where
  | typeError
  | indexError
  | valueError
  | invalidArgument
deriving DecidableEq

/-- Subscripting the result of `geom_disassembly(poly, 'point')` with an
integer, expecting a point.  Subscripting `None` raises `TypeError`.
The `some` branch is unreachable from every call site (the key
`'point'` misses the integer-keyed dictionary, see
`geomDisassembly_pstr`); in Python it would also fail, since the
namedtuple elements of a `PolyParts` are rings, not points. -/
def pyIndexPoint (obj : Option PyObject) (_i : ℕ) : Except PyErr Point :=
  match obj with
  | none => Except.error PyErr.typeError
  | some _ => Except.error PyErr.typeError

/-- The state stored by `Hexagons.__init__`. -/
structure HexagonsState : Type where
  hectare : ℝ
  squareMetre : ℝ
  xMin : ℝ
  xMax : ℝ
  yMin : ℝ
  yMax : ℝ

/-- `Hexagons._add_margin(margin)`. -/
def addMargin (st : HexagonsState) (margin : ℝ) : HexagonsState :=
  { st with
    xMin := st.xMin + margin * (-1)
    yMin := st.yMin + margin * (-1)
    xMax := st.xMax + margin
    yMax := st.yMax + margin }

/-- `Hexagons.__init__(hectare, x_min, y_min, x_max, y_max, margin)`:
no validation is performed, and the margin is applied only when
`0 < margin`. -/
def hexagonsInit (hectare xMin yMin xMax yMax margin : ℝ) : HexagonsState :=
  let st : HexagonsState :=
    { hectare := hectare
      squareMetre := hectare * 10000
      xMin := xMin
      xMax := xMax
      yMin := yMin
      yMax := yMax }
  if 0 < margin then addMargin st margin else st

/-- `Hexagons._sbs_x_off(poly)`: `abs(coords[1][0] - coords[-2][0])`. -/
def sbsXOff (poly : Hexagon) : ℝ :=
  |((poly.get? 1).getD (0, 0)).1 - ((poly.get? (poly.length - 2)).getD (0, 0)).1|

/-- The `while True:` loop of `Hexagons._side_by_side`, with the newest
hexagon kept at the head of the accumulator; the emitted list is the
accumulator reversed (leftmost hexagon first, as in the source). -/
def sbsAux (xOff endX : ℝ) : ℕ → List Hexagon → Option (List Hexagon)
  | 0, _ => none
  | fuel + 1, acc =>
    let shifted := translateHex (acc.headD []) xOff 0
    let acc' := shifted :: acc
    if endX < xMaxOf shifted then some acc'.reverse else sbsAux xOff endX fuel acc'

/-- `Hexagons._side_by_side(start_x, start_y, end_x)`. -/
def sideBySide (st : HexagonsState) (startX startY endX : ℝ) (fuel : ℕ) :
    Option (List Hexagon) :=
  let hexagon := hexRing st.squareMetre startX startY
  let xOff := sbsXOff hexagon
  sbsAux xOff endX fuel [hexagon]

/-- `Hexagons._lsbs_x_off(poly)`: `geom_disassembly(poly, 'point')`
returns `None`, so the slice `points[: 2]` raises `TypeError`.  (Were
the dispatch reachable, slicing the `PolyParts` and feeding the pair of
rings to `shapely.MultiPoint` would fail as well.) -/
def lsbsXOff (poly : Hexagon) : Except PyErr ℝ :=
  match geomDisassembly poly pointKey with
  | none => Except.error PyErr.typeError
  | some _ => Except.error PyErr.typeError

/-- `Hexagons._lsbs_y_off(poly)`: unpacking
`geom_disassembly(poly, 'point')[: 2]` raises `TypeError` on `None`. -/
def lsbsYOff (poly : Hexagon) : Except PyErr ℝ :=
  match geomDisassembly poly pointKey with
  | none => Except.error PyErr.typeError
  | some _ => Except.error PyErr.typeError

/-- `Hexagons._lower_side_by_side(start_x, start_y, end_x)`. -/
def lowerSideBySide (st : HexagonsState) (startX startY endX : ℝ) (fuel : ℕ) :
    Option (Except PyErr (List Hexagon)) :=
  match sideBySide st startX startY endX fuel with
  | none => none
  | some hexagons =>
    match lsbsXOff (hexagons.headD []) with
    | Except.error e => some (Except.error e)
    | Except.ok xOff =>
      match lsbsYOff (hexagons.headD []) with
      | Except.error e => some (Except.error e)
      | Except.ok yOff =>
        let newHexagons := hexagons.map (fun hx => translateHex hx xOff yOff)
        let xOff2 := sbsXOff (hexagons.headD []) * (-1)
        let firstHexagon := translateHex (newHexagons.headD []) xOff2 0
        some (Except.ok (firstHexagon :: newHexagons))

/-- `Hexagons.__move_down_y_off(poly)`:
`geom_disassembly(poly, 'point')[0]` raises `TypeError` on `None`. -/
def moveDownYOff (poly : Hexagon) : Except PyErr ℝ :=
  match pyIndexPoint (geomDisassembly poly pointKey) 0 with
  | Except.error e => Except.error e
  | Except.ok pt => Except.ok (ptDist pt (polyCentroid poly) * 3 * (-1))

/-- `Hexagons.__move_down(hexagons, y_off)`. -/
def moveDownRow (hexagons : Row) (yOff : ℝ) : Row :=
  hexagons.map (fun hx => translateHex hx 0 yOff)

/-- `self.__calc_y_min(row[0])` as used in `create_hexagons_gdf`. -/
def rowHeadYMin (r : Row) : ℝ := yMinOf (r.headD [])

/-- The downward row-copy `while True:` loop of
`Hexagons.create_hexagons_gdf` (lines appending shifted copies of the
last upper and lower rows until one drops below `y_min`). -/
def gridLoopAux (yOff yMinBound : ℝ) :
    ℕ → List Row → List Row → Option (List Row × List Row)
  | 0, _, _ => none
  | fuel + 1, uppers, lowers =>
    let newUpper := moveDownRow (uppers.getLastD []) yOff
    let uppers' := uppers ++ [newUpper]
    if rowHeadYMin newUpper < yMinBound then some (uppers', lowers)
    else
      let newLower := moveDownRow (lowers.getLastD []) yOff
      let lowers' := lowers ++ [newLower]
      if rowHeadYMin newLower < yMinBound then some (uppers', lowers')
      else gridLoopAux yOff yMinBound fuel uppers' lowers'

/-- The `base_corner` selection at the top of `Hexagons._fit`. -/
def fitBaseCorner (baseHexagons shiftHexagons : List Hexagon) : ℕ :=
  if baseHexagons.length ≤ shiftHexagons.length then 4 else 2

/-- The `while True:` loop of `Hexagons._fit`.  `result_hexagons[-1]`
on an empty result list raises `IndexError`. -/
def fitAux (baseCorner : ℕ) :
    ℕ → List Hexagon → List Hexagon → List Hexagon →
    Option (Except PyErr (List Hexagon))
  | 0, _, _, _ => none
  | fuel + 1, baseHexagons, shiftHexagons, resultHexagons =>
    if 1 ≤ shiftHexagons.length ∧ 1 ≤ baseHexagons.length then
      match pyIndexPoint (geomDisassembly (baseHexagons.headD []) pointKey) baseCorner with
      | Except.error e => some (Except.error e)
      | Except.ok basePt =>
        match pyIndexPoint (geomDisassembly (shiftHexagons.headD []) pointKey) 0 with
        | Except.error e => some (Except.error e)
        | Except.ok shiftPt =>
          let rHexg := translateHex (shiftHexagons.headD [])
            (basePt.1 - shiftPt.1) (basePt.2 - shiftPt.2)
          fitAux baseCorner fuel baseHexagons.tail shiftHexagons.tail
            (resultHexagons ++ [rHexg])
    else if 1 ≤ shiftHexagons.length then
      match resultHexagons.getLast? with
      | none => some (Except.error PyErr.indexError)
      | some bHexg =>
        match pyIndexPoint (geomDisassembly bHexg pointKey) 1 with
        | Except.error e => some (Except.error e)
        | Except.ok basePt =>
          match pyIndexPoint (geomDisassembly (shiftHexagons.headD []) pointKey) 5 with
          | Except.error e => some (Except.error e)
          | Except.ok shiftPt =>
            let rHexg := translateHex (shiftHexagons.headD [])
              (basePt.1 - shiftPt.1) (basePt.2 - shiftPt.2)
            fitAux baseCorner fuel baseHexagons shiftHexagons.tail
              (resultHexagons ++ [rHexg])
    else some (Except.ok resultHexagons)

/-- `Hexagons._fit(base_hexagons, shift_hexagons)`. -/
def fit (baseHexagons shiftHexagons : List Hexagon) (fuel : ℕ) :
    Option (Except PyErr (List Hexagon)) :=
  fitAux (fitBaseCorner baseHexagons shiftHexagons) fuel baseHexagons shiftHexagons []

/-- The `while True:` loop of `Hexagons._fitting`. -/
def fittingAux (globalFuel : ℕ) :
    ℕ → List Row → List Row → List Row → List Row →
    Option (Except PyErr (List Row × List Row))
  | 0, _, _, _, _ => none
  | fuel + 1, upperPolys, lowerPolys, resultUppers, resultLowers =>
    match
      (if 1 ≤ lowerPolys.length then
        match resultUppers.getLast? with
        | none => some (Except.error PyErr.indexError)
        | some lastUpper =>
          match fit lastUpper (lowerPolys.headD []) globalFuel with
          | none => none
          | some (Except.error e) => some (Except.error e)
          | some (Except.ok rLowers) =>
            some (Except.ok (lowerPolys.tail, resultLowers ++ [rLowers]))
      else some (Except.ok (lowerPolys, resultLowers))) with
    | none => none
    | some (Except.error e) => some (Except.error e)
    | some (Except.ok (lowerPolys', resultLowers')) =>
      match
        (if 1 ≤ upperPolys.length then
          match resultLowers'.getLast? with
          | none => some (Except.error PyErr.indexError)
          | some lastLower =>
            match fit lastLower (upperPolys.headD []) globalFuel with
            | none => none
            | some (Except.error e) => some (Except.error e)
            | some (Except.ok rUppers) =>
              some (Except.ok (upperPolys.tail, resultUppers ++ [rUppers]))
        else some (Except.ok (upperPolys, resultUppers))) with
      | none => none
      | some (Except.error e) => some (Except.error e)
      | some (Except.ok (upperPolys', resultUppers')) =>
        if upperPolys'.length = 0 ∧ lowerPolys'.length = 0 then
          some (Except.ok (resultUppers', resultLowers'))
        else fittingAux globalFuel fuel upperPolys' lowerPolys' resultUppers' resultLowers'

/-- `Hexagons._fitting(upper_polys, lower_polys)`: `pop(0)` of an empty
`upper_polys` raises `IndexError`. -/
def fitting (globalFuel : ℕ) (upperPolys lowerPolys : List Row) :
    Option (Except PyErr (List Row × List Row)) :=
  match upperPolys with
  | [] => some (Except.error PyErr.indexError)
  | u0 :: rest => fittingAux globalFuel globalFuel rest lowerPolys [u0] []

/-- The sorted output of `Hexagons._sort_hexagons`. -/
structure SortedHexagons : Type where
  hexagonLst : List Hexagon
  rowsIdx : List ℕ
  colsIdx : List ℕ

/-- One `for i, poly in enumerate(polys)` emission block of
`Hexagons._sort_hexagons`. -/
def emitRow (acc : SortedHexagons) (row : ℕ) (polys : Row) : SortedHexagons :=
  { hexagonLst := acc.hexagonLst ++ polys
    rowsIdx := acc.rowsIdx ++ polys.map (fun _ => row)
    colsIdx := acc.colsIdx ++ List.range polys.length }

/-- The `while True:` loop of `Hexagons._sort_hexagons`. -/
def sortAux : ℕ → ℕ → List Row → List Row → SortedHexagons → Option SortedHexagons
  | 0, _, _, _, _ => none
  | fuel + 1, row, upperPolys, lowerPolys, acc =>
    let upperStep :=
      if 1 ≤ upperPolys.length then (upperPolys.tail, emitRow acc row (upperPolys.headD []))
      else (upperPolys, acc)
    let row' := row + 1
    let lowerStep :=
      if 1 ≤ lowerPolys.length then
        (lowerPolys.tail, emitRow upperStep.2 row' (lowerPolys.headD []))
      else (lowerPolys, upperStep.2)
    if upperStep.1.length = 0 ∧ lowerStep.1.length = 0 then some lowerStep.2
    else sortAux fuel (row' + 1) upperStep.1 lowerStep.1 lowerStep.2

/-- `Hexagons._sort_hexagons(upper_polys, lower_polys)`: fitting pass
followed by the indexing loop. -/
def sortHexagons (globalFuel : ℕ) (upperPolys lowerPolys : List Row) :
    Option (Except PyErr SortedHexagons) :=
  match fitting globalFuel upperPolys lowerPolys with
  | none => none
  | some (Except.error e) => some (Except.error e)
  | some (Except.ok uplow) =>
    match sortAux globalFuel 0 uplow.1 uplow.2 ⟨[], [], []⟩ with
    | none => none
    | some sorted => some (Except.ok sorted)

/-- One record of the produced GeoDataFrame. -/
structure GdfRecord : Type where
  rowsIdx : ℕ
  colsIdx : ℕ
  uniqueId : String
  geometry : Hexagon

/-- The produced GeoDataFrame, as its list of records. -/
abbrev Gdf : Type := List GdfRecord

/-- The data assembly of `Hexagons._create_gdf`. -/
def createGdfRecords (sorted : SortedHexagons) : Gdf :=
  (sorted.rowsIdx.zip (sorted.colsIdx.zip sorted.hexagonLst)).map
    (fun rc => ⟨rc.1, rc.2.1, toString rc.1 ++ ("-") ++ toString rc.2.1, rc.2.2⟩)

/-- `Hexagons._create_gdf(upper_polys, lower_polys)`. -/
def createGdf (globalFuel : ℕ) (upperPolys lowerPolys : List Row) :
    Option (Except PyErr Gdf) :=
  match sortHexagons globalFuel upperPolys lowerPolys with
  | none => none
  | some (Except.error e) => some (Except.error e)
  | some (Except.ok sorted) => some (Except.ok (createGdfRecords sorted))

/-- The `create_hexagons_gdf` property of `Hexagons`. -/
def createHexagonsGdf (st : HexagonsState) (fuel : ℕ) : Option (Except PyErr Gdf) :=
  match sideBySide st st.xMin st.yMax st.xMax fuel with
  | none => none
  | some sbsPolys =>
    match lowerSideBySide st st.xMin st.yMax st.xMax fuel with
    | none => none
    | some (Except.error e) => some (Except.error e)
    | some (Except.ok lsbsPolys) =>
      match moveDownYOff (sbsPolys.headD []) with
      | Except.error e => some (Except.error e)
      | Except.ok yOff =>
        match gridLoopAux yOff st.yMin fuel [sbsPolys] [lsbsPolys] with
        | none => none
        | some uplow => createGdf fuel uplow.1 uplow.2

/-- Module-level `regular_hexagon_gdf(hectare, geometry, margin)`, with
the geometry represented by its bounds `(x_min, y_min, x_max, y_max)`
as read by `geometry.bounds`. -/
def regularHexagonGdf (hectare xMin yMin xMax yMax margin : ℝ) (fuel : ℕ) :
    Option (Except PyErr Gdf) :=
  createHexagonsGdf (hexagonsInit hectare xMin yMin xMax yMax margin) fuel

/-- The 1-hectare tessellation state of the specification's concrete
scenario: `hectare = 1.0`, bounding box `(0, 0, 100, 100)`, margin 0. -/
def haBox : HexagonsState := hexagonsInit 1 0 0 100 100 0

/-- A state with a positive but tiny cell area: `hectare = 10 ^ (-14)`
over the same box, for which the rounded side length is `0.0`. -/
def tinyBox : HexagonsState := hexagonsInit (1 / 10 ^ 14) 0 0 100 100 0

/-! ### Helper lemmas -/

/-- Looking up any string key in the integer-keyed `funcs` dictionary
returns `None`: `geom_disassembly(geom, 'point')` always logs an error
and returns `None`. -/
lemma geomDisassembly_pstr (geom : Hexagon) (s : String) :
    geomDisassembly geom (PyKey.pstr s) = none := by
  simp [geomDisassembly, dictGet, responseFuncs]

lemma lsbsXOff_err (poly : Hexagon) : lsbsXOff poly = Except.error PyErr.typeError := by
  unfold lsbsXOff pointKey
  rw [geomDisassembly_pstr]

lemma lsbsYOff_err (poly : Hexagon) : lsbsYOff poly = Except.error PyErr.typeError := by
  unfold lsbsYOff pointKey
  rw [geomDisassembly_pstr]

lemma pyIndexPoint_err (obj : Option PyObject) (i : ℕ) :
    pyIndexPoint obj i = Except.error PyErr.typeError := by
  unfold pyIndexPoint
  cases obj <;> rfl

lemma moveDownYOff_err (poly : Hexagon) :
    moveDownYOff poly = Except.error PyErr.typeError := by
  unfold moveDownYOff
  rw [pyIndexPoint_err]

lemma sin_rad_0 : Real.sin (rad 0) = 0 := by simp [rad]

lemma cos_rad_0 : Real.cos (rad 0) = 1 := by simp [rad]

lemma rad_60 : rad 60 = Real.pi / 3 := by unfold rad; ring

lemma sin_rad_60 : Real.sin (rad 60) = Real.sqrt 3 / 2 := by
  rw [rad_60, Real.sin_pi_div_three]

lemma cos_rad_60 : Real.cos (rad 60) = 1 / 2 := by
  rw [rad_60, Real.cos_pi_div_three]

lemma rad_120 : rad 120 = Real.pi - Real.pi / 3 := by unfold rad; ring

lemma sin_rad_120 : Real.sin (rad 120) = Real.sqrt 3 / 2 := by
  rw [rad_120, Real.sin_pi_sub, Real.sin_pi_div_three]

lemma cos_rad_120 : Real.cos (rad 120) = -(1 / 2) := by
  rw [rad_120, Real.cos_pi_sub, Real.cos_pi_div_three]

lemma sin_rad_180 : Real.sin (rad 180) = 0 := by
  have h : rad 180 = Real.pi := by unfold rad; ring
  rw [h, Real.sin_pi]

lemma cos_rad_180 : Real.cos (rad 180) = -1 := by
  have h : rad 180 = Real.pi := by unfold rad; ring
  rw [h, Real.cos_pi]

lemma rad_240 : rad 240 = Real.pi / 3 + Real.pi := by unfold rad; ring

lemma sin_rad_240 : Real.sin (rad 240) = -(Real.sqrt 3 / 2) := by
  rw [rad_240, Real.sin_add_pi, Real.sin_pi_div_three]

lemma cos_rad_240 : Real.cos (rad 240) = -(1 / 2) := by
  rw [rad_240, Real.cos_add_pi, Real.cos_pi_div_three]

lemma rad_300 : rad 300 = 2 * Real.pi - Real.pi / 3 := by unfold rad; ring

lemma sin_rad_300 : Real.sin (rad 300) = -(Real.sqrt 3 / 2) := by
  rw [rad_300, Real.sin_two_pi_sub, Real.sin_pi_div_three]

lemma cos_rad_300 : Real.cos (rad 300) = 1 / 2 := by
  rw [rad_300, Real.cos_two_pi_sub, Real.cos_pi_div_three]

lemma rad_360 : rad 360 = 2 * Real.pi := by unfold rad; ring

lemma sin_rad_360 : Real.sin (rad 360) = 0 := by
  rw [rad_360, Real.sin_two_pi]

lemma cos_rad_360 : Real.cos (rad 360) = 1 := by
  rw [rad_360, Real.cos_two_pi]

/-- A coordinate list that already ends at its first point is left
unchanged by the ring closure. -/
lemma closeRing_closed (p : Point) (ps : List Point)
    (h : (p :: ps).getLast? = some p) : closeRing (p :: ps) = p :: ps := by
  show (if (p :: ps).getLast? = some p then p :: ps else (p :: ps) ++ [p]) = p :: ps
  rw [if_pos h]

/-- In exact arithmetic the seventh vertex (angle 360°) coincides with
the first (angle 0°), so `shapely.Polygon` does not append a closing
point and the exterior ring is the seven constructed vertices. -/
lemma hexRing_eq (sm cx cy : ℝ) :
    hexRing sm cx cy =
      [(cx, cy + sideLen sm),
       (cx + sideLen sm * (Real.sqrt 3 / 2), cy + sideLen sm * (1 / 2)),
       (cx + sideLen sm * (Real.sqrt 3 / 2), cy + sideLen sm * -(1 / 2)),
       (cx, cy + sideLen sm * -1),
       (cx + sideLen sm * -(Real.sqrt 3 / 2), cy + sideLen sm * -(1 / 2)),
       (cx + sideLen sm * -(Real.sqrt 3 / 2), cy + sideLen sm * (1 / 2)),
       (cx, cy + sideLen sm)] := by
  have hverts : hexVertsRaw sm cx cy =
      [(cx, cy + sideLen sm),
       (cx + sideLen sm * (Real.sqrt 3 / 2), cy + sideLen sm * (1 / 2)),
       (cx + sideLen sm * (Real.sqrt 3 / 2), cy + sideLen sm * -(1 / 2)),
       (cx, cy + sideLen sm * -1),
       (cx + sideLen sm * -(Real.sqrt 3 / 2), cy + sideLen sm * -(1 / 2)),
       (cx + sideLen sm * -(Real.sqrt 3 / 2), cy + sideLen sm * (1 / 2)),
       (cx, cy + sideLen sm)] := by
    unfold hexVertsRaw hexAngles
    simp only [List.map_cons, List.map_nil, sin_rad_0, cos_rad_0, sin_rad_60, cos_rad_60,
      sin_rad_120, cos_rad_120, sin_rad_180, cos_rad_180, sin_rad_240, cos_rad_240,
      sin_rad_300, cos_rad_300, sin_rad_360, cos_rad_360, mul_zero, mul_one, add_zero]
  unfold hexRing
  rw [hverts]
  exact closeRing_closed _ _ (by simp)

lemma hexRing_ne_nil (sm cx cy : ℝ) : hexRing sm cx cy ≠ [] := by
  rw [hexRing_eq]
  simp

lemma round4_nonneg (x : ℝ) (hx : 0 ≤ x) : 0 ≤ round4 x := by
  unfold round4
  have h : (0 : ℤ) ≤ round (x * 10000) := by
    rw [round_eq]
    exact Int.floor_nonneg.mpr (by linarith)
  have h2 : (0 : ℝ) ≤ ((round (x * 10000) : ℤ) : ℝ) := by exact_mod_cast h
  linarith

lemma round4_eq (x : ℝ) (n : ℤ) (h1 : (n : ℝ) - 1 / 2 ≤ x * 10000)
    (h2 : x * 10000 < (n : ℝ) + 1 / 2) : round4 x = (n : ℝ) / 10000 := by
  unfold round4
  have h : round (x * 10000) = n := by
    rw [round_eq, Int.floor_eq_iff]
    constructor
    · linarith
    · linarith
  rw [h]

lemma sideLen_nonneg (sm : ℝ) : 0 ≤ sideLen sm :=
  round4_nonneg _ (Real.sqrt_nonneg _)

lemma sqrt3_gt : (1.7320508075 : ℝ) < Real.sqrt 3 :=
  Real.lt_sqrt_of_sq_lt (by norm_num)

lemma sqrt3_lt : Real.sqrt 3 < (1.7320508076 : ℝ) := by
  rw [Real.sqrt_lt' (by norm_num)]
  norm_num

lemma sqrt3_pos : (0 : ℝ) < Real.sqrt 3 :=
  Real.sqrt_pos.mpr (by norm_num)

/-- For the 1-hectare cell, `round(sqrt(10000 / (1.5 * sqrt(3))), 4)`
is exactly `62.0403`. -/
lemma sideLen_1ha : sideLen 10000 = 620403 / 10000 := by
  have h3u := sqrt3_lt
  have h3l := sqrt3_gt
  have hsp := sqrt3_pos
  have hX1 : (62.04025 : ℝ) ^ 2 ≤ 10000 / (1.5 * Real.sqrt 3) := by
    rw [le_div_iff₀ (by positivity)]
    nlinarith
  have hX2 : 10000 / (1.5 * Real.sqrt 3) < (62.04035 : ℝ) ^ 2 := by
    rw [div_lt_iff₀ (by positivity)]
    nlinarith
  have hs1 : (62.04025 : ℝ) ≤ Real.sqrt (10000 / (1.5 * Real.sqrt 3)) :=
    Real.le_sqrt_of_sq_le hX1
  have hs2 : Real.sqrt (10000 / (1.5 * Real.sqrt 3)) < 62.04035 := by
    rw [Real.sqrt_lt' (by norm_num)]
    exact hX2
  unfold sideLen
  have h1 : ((620403 : ℤ) : ℝ) - 1 / 2 ≤ Real.sqrt (10000 / (1.5 * Real.sqrt 3)) * 10000 := by
    push_cast
    nlinarith
  have h2 : Real.sqrt (10000 / (1.5 * Real.sqrt 3)) * 10000 < ((620403 : ℤ) : ℝ) + 1 / 2 := by
    push_cast
    nlinarith
  rw [round4_eq _ 620403 h1 h2]
  norm_num

/-- Any square-metre value below `3 / 10 ^ 9` (in particular any
non-positive one) has a side length that rounds to `0.0`. -/
lemma sideLen_eq_zero (sm : ℝ) (hsm : sm < 3 / 10 ^ 9) : sideLen sm = 0 := by
  have hsp := sqrt3_pos
  have h3l := sqrt3_gt
  have harg : sm / (1.5 * Real.sqrt 3) < (1 / 20000 : ℝ) ^ 2 := by
    rw [div_lt_iff₀ (by positivity)]
    nlinarith
  have hs : Real.sqrt (sm / (1.5 * Real.sqrt 3)) < 1 / 20000 := by
    rw [Real.sqrt_lt' (by norm_num)]
    exact harg
  have hs0 : 0 ≤ Real.sqrt (sm / (1.5 * Real.sqrt 3)) := Real.sqrt_nonneg _
  unfold sideLen
  rw [round4_eq _ 0]
  · norm_num
  · push_cast
    linarith
  · push_cast
    linarith

lemma max_add_right (a b c : ℝ) : max (a + c) (b + c) = max a b + c := by
  rcases le_total a b with h | h
  · rw [max_eq_right h, max_eq_right (by linarith)]
  · rw [max_eq_left h, max_eq_left (by linarith)]

lemma min_add_right (a b c : ℝ) : min (a + c) (b + c) = min a b + c := by
  rcases le_total a b with h | h
  · rw [min_eq_left h, min_eq_left (by linarith)]
  · rw [min_eq_right h, min_eq_right (by linarith)]

lemma listMax_foldl_add (xs : List ℝ) (x d : ℝ) :
    List.foldl max (x + d) (xs.map (fun v => v + d)) = List.foldl max x xs + d := by
  induction xs generalizing x with
  | nil => simp
  | cons y ys ih =>
    simp only [List.map_cons, List.foldl_cons, max_add_right]
    exact ih (max x y)

lemma listMin_foldl_add (xs : List ℝ) (x d : ℝ) :
    List.foldl min (x + d) (xs.map (fun v => v + d)) = List.foldl min x xs + d := by
  induction xs generalizing x with
  | nil => simp
  | cons y ys ih =>
    simp only [List.map_cons, List.foldl_cons, min_add_right]
    exact ih (min x y)

lemma xMaxOf_translate (l : Hexagon) (dx dy : ℝ) (hl : l ≠ []) :
    xMaxOf (translateHex l dx dy) = xMaxOf l + dx := by
  obtain ⟨p, ps, rfl⟩ := List.exists_cons_of_ne_nil hl
  unfold xMaxOf translateHex listMax
  simp only [List.map_cons, List.map_map]
  have hcomp : ((fun p : Point => (p.1 + dx, p.2 + dy)) · |>.1) = fun p : Point => p.1 + dx := by
    funext q
    rfl
  rw [show (Prod.fst ∘ fun p : Point => (p.1 + dx, p.2 + dy)) = fun p : Point => p.1 + dx from rfl]
  have : (ps.map fun p : Point => p.1 + dx) = (ps.map Prod.fst).map (fun v => v + dx) := by
    rw [List.map_map]
    rfl
  rw [this]
  exact listMax_foldl_add _ _ _

lemma yMinOf_translate (l : Hexagon) (dx dy : ℝ) (hl : l ≠ []) :
    yMinOf (translateHex l dx dy) = yMinOf l + dy := by
  obtain ⟨p, ps, rfl⟩ := List.exists_cons_of_ne_nil hl
  unfold yMinOf translateHex listMin
  simp only [List.map_cons, List.map_map]
  rw [show (Prod.snd ∘ fun p : Point => (p.1 + dx, p.2 + dy)) = fun p : Point => p.2 + dy from rfl]
  have : (ps.map fun p : Point => p.2 + dy) = (ps.map Prod.snd).map (fun v => v + dy) := by
    rw [List.map_map]
    rfl
  rw [this]
  exact listMin_foldl_add _ _ _

lemma translateHex_zero (l : Hexagon) : translateHex l 0 0 = l := by
  unfold translateHex
  simp

lemma translateHex_ne_nil (l : Hexagon) (dx dy : ℝ) (hl : l ≠ []) :
    translateHex l dx dy ≠ [] := by
  unfold translateHex
  simpa using hl

lemma foldl_max_eq (xs : List ℝ) (a m : ℝ) (ha : a ≤ m) (hmem : m = a ∨ m ∈ xs)
    (hub : ∀ x ∈ xs, x ≤ m) : List.foldl max a xs = m := by
  induction xs generalizing a with
  | nil =>
    rcases hmem with rfl | h
    · rfl
    · exact absurd h (List.not_mem_nil m)
  | cons y ys ih =>
    simp only [List.foldl_cons]
    have hy : y ≤ m := hub y (List.mem_cons_self y ys)
    refine ih (max a y) (max_le ha hy) ?_ (fun x hx => hub x (List.mem_cons_of_mem y hx))
    rcases hmem with rfl | h
    · exact Or.inl (max_eq_left hy).symm
    · rcases List.mem_cons.mp h with rfl | h2
      · exact Or.inl (max_eq_right ha).symm
      · exact Or.inr h2

lemma foldl_min_eq (xs : List ℝ) (a m : ℝ) (ha : m ≤ a) (hmem : m = a ∨ m ∈ xs)
    (hub : ∀ x ∈ xs, m ≤ x) : List.foldl min a xs = m := by
  induction xs generalizing a with
  | nil =>
    rcases hmem with rfl | h
    · rfl
    · exact absurd h (List.not_mem_nil m)
  | cons y ys ih =>
    simp only [List.foldl_cons]
    have hy : m ≤ y := hub y (List.mem_cons_self y ys)
    refine ih (min a y) (le_min ha hy) ?_ (fun x hx => hub x (List.mem_cons_of_mem y hx))
    rcases hmem with rfl | h
    · exact Or.inl (min_eq_left hy).symm
    · rcases List.mem_cons.mp h with rfl | h2
      · exact Or.inl (min_eq_right ha).symm
      · exact Or.inr h2

/-- The largest x coordinate of a constructed hexagon: its centre x
plus half its width. -/
lemma xMaxOf_hexRing (sm cx cy : ℝ) :
    xMaxOf (hexRing sm cx cy) = cx + sideLen sm * (Real.sqrt 3 / 2) := by
  have hs := sideLen_nonneg sm
  have hw : 0 ≤ sideLen sm * (Real.sqrt 3 / 2) := by positivity
  rw [hexRing_eq]
  unfold xMaxOf listMax
  simp only [List.map_cons, List.map_nil]
  refine foldl_max_eq _ _ _ (by linarith) (by simp) ?_
  intro x hx
  simp only [List.mem_cons, List.not_mem_nil, or_false] at hx
  rcases hx with rfl | rfl | rfl | rfl | rfl | rfl <;> linarith

/-- The smallest y coordinate of a constructed hexagon: its centre y
minus the side length. -/
lemma yMinOf_hexRing (sm cx cy : ℝ) :
    yMinOf (hexRing sm cx cy) = cy + sideLen sm * -1 := by
  have hs := sideLen_nonneg sm
  rw [hexRing_eq]
  unfold yMinOf listMin
  simp only [List.map_cons, List.map_nil]
  refine foldl_min_eq _ _ _ (by linarith) (by simp) ?_
  intro x hx
  simp only [List.mem_cons, List.not_mem_nil, or_false] at hx
  rcases hx with rfl | rfl | rfl | rfl | rfl | rfl <;> linarith

/-- `_sbs_x_off` of a constructed hexagon is its full width
`sqrt(3) * side`, the horizontal distance between the flank vertices at
indices 1 and -2 of the ring. -/
lemma sbsXOff_hexRing (sm cx cy : ℝ) :
    sbsXOff (hexRing sm cx cy) = Real.sqrt 3 * sideLen sm := by
  have hs := sideLen_nonneg sm
  have h3 := Real.sqrt_nonneg 3
  rw [hexRing_eq]
  unfold sbsXOff
  norm_num
  rw [show sideLen sm * (Real.sqrt 3 / 2) + sideLen sm * (Real.sqrt 3 / 2)
      = Real.sqrt 3 * sideLen sm from by ring]
  exact abs_of_nonneg (by positivity)

lemma sbsAux_succ (xOff endX : ℝ) (fuel : ℕ) (acc : List Hexagon) :
    sbsAux xOff endX (fuel + 1) acc =
      if endX < xMaxOf (translateHex (acc.headD []) xOff 0)
      then some (translateHex (acc.headD []) xOff 0 :: acc).reverse
      else sbsAux xOff endX fuel (translateHex (acc.headD []) xOff 0 :: acc) := rfl

/-- If after `n + 1` more pitches the right edge passes `end_x`, the
row loop stops within `n + 1` iterations. -/
lemma sbsAux_term (xOff endX : ℝ) :
    ∀ (n : ℕ) (acc : List Hexagon), acc.headD [] ≠ [] →
      endX < xMaxOf (acc.headD []) + (n + 1) * xOff →
      (sbsAux xOff endX (n + 1) acc).isSome := by
  intro n
  induction n with
  | zero =>
    intro acc hne hlt
    rw [sbsAux_succ, if_pos]
    · simp
    · rw [xMaxOf_translate _ _ _ hne]
      push_cast at hlt
      linarith
  | succ m ih =>
    intro acc hne hlt
    rw [sbsAux_succ]
    by_cases hc : endX < xMaxOf (translateHex (acc.headD []) xOff 0)
    · rw [if_pos hc]
      simp
    · rw [if_neg hc]
      refine ih _ ?_ ?_
      · simp only [List.headD_cons]
        exact translateHex_ne_nil _ _ _ hne
      · simp only [List.headD_cons]
        rw [xMaxOf_translate _ _ _ hne]
        push_cast at hlt ⊢
        linarith

/-- With a strictly positive pitch the row loop terminates. -/
lemma sbs_terminates (xOff endX : ℝ) (hx : 0 < xOff) (h0 : Hexagon) (hne : h0 ≠ []) :
    ∃ fuel, (sbsAux xOff endX fuel [h0]).isSome := by
  obtain ⟨n, hn⟩ := exists_nat_gt ((endX - xMaxOf h0) / xOff)
  refine ⟨n + 1, sbsAux_term xOff endX n [h0] (by simpa) ?_⟩
  rw [div_lt_iff₀ hx] at hn
  simp only [List.headD_cons]
  have hstep : (n : ℝ) * xOff ≤ ((n : ℝ) + 1) * xOff := by nlinarith
  linarith

/-- With a zero pitch and a start not already past `end_x`, the row
loop never reaches its `break`. -/
lemma sbsAux_stuck (endX : ℝ) (h0 : Hexagon) (hle : xMaxOf h0 ≤ endX) :
    ∀ (fuel : ℕ) (acc : List Hexagon), acc.headD [] = h0 →
      sbsAux 0 endX fuel acc = none := by
  intro fuel
  induction fuel with
  | zero => intro acc _; rfl
  | succ m ih =>
    intro acc hacc
    rw [sbsAux_succ, hacc, translateHex_zero, if_neg (not_lt.mpr hle)]
    exact ih (h0 :: acc) (by simp)

lemma sideBySide_terminates (st : HexagonsState) (sx sy ex : ℝ)
    (hside : 0 < sideLen st.squareMetre) :
    ∃ fuel, (sideBySide st sx sy ex fuel).isSome := by
  unfold sideBySide
  have hx : 0 < sbsXOff (hexRing st.squareMetre sx sy) := by
    rw [sbsXOff_hexRing]
    exact mul_pos sqrt3_pos hside
  exact sbs_terminates _ ex hx _ (hexRing_ne_nil _ _ _)

lemma sideBySide_stuck (st : HexagonsState) (sx sy ex : ℝ)
    (hzero : sideLen st.squareMetre = 0) (hle : sx ≤ ex) :
    ∀ fuel, sideBySide st sx sy ex fuel = none := by
  intro fuel
  unfold sideBySide
  have hx : sbsXOff (hexRing st.squareMetre sx sy) = 0 := by
    rw [sbsXOff_hexRing, hzero, mul_zero]
  show sbsAux (sbsXOff (hexRing st.squareMetre sx sy)) ex fuel
    [hexRing st.squareMetre sx sy] = none
  rw [hx]
  refine sbsAux_stuck ex (hexRing st.squareMetre sx sy) ?_ fuel _ (by simp)
  rw [xMaxOf_hexRing, hzero]
  simpa using hle

/-- The offset-row builder fails with `TypeError` as soon as the base
row is available: `geom_disassembly(hexagons[0], 'point')` returns
`None` and `_lsbs_x_off` subscripts it. -/
lemma lowerSideBySide_err (st : HexagonsState) (sx sy ex : ℝ) (fuel : ℕ)
    (l : List Hexagon) (h : sideBySide st sx sy ex fuel = some l) :
    lowerSideBySide st sx sy ex fuel = some (Except.error PyErr.typeError) := by
  unfold lowerSideBySide
  simp only [h, lsbsXOff_err]

/-- The whole tessellation constructor fails with `TypeError` whenever
its first row loop terminates. -/
lemma createHexagonsGdf_err (st : HexagonsState) (fuel : ℕ) (l : List Hexagon)
    (h : sideBySide st st.xMin st.yMax st.xMax fuel = some l) :
    createHexagonsGdf st fuel = some (Except.error PyErr.typeError) := by
  unfold createHexagonsGdf
  simp only [h, lowerSideBySide_err st _ _ _ _ l h]

/-- When the first row loop never finishes, the constructor produces
nothing at all (it hangs; in particular it raises no exception). -/
lemma createHexagonsGdf_none (st : HexagonsState)
    (h : ∀ fuel, sideBySide st st.xMin st.yMax st.xMax fuel = none) :
    ∀ fuel, createHexagonsGdf st fuel = none := by
  intro fuel
  unfold createHexagonsGdf
  simp only [h fuel]

/-- A constructor call with non-positive margin stores the six state
fields with no change at all. -/
lemma hexagonsInit_nonpos (h xm ym xM yM m : ℝ) (hm : m ≤ 0) :
    hexagonsInit h xm ym xM yM m = ⟨h, h * 10000, xm, xM, ym, yM⟩ := by
  unfold hexagonsInit
  rw [if_neg (not_lt.mpr hm)]

/-- A constructor call with positive margin expands the stored bounds
symmetrically. -/
lemma hexagonsInit_pos (h xm ym xM yM m : ℝ) (hm : 0 < m) :
    hexagonsInit h xm ym xM yM m
      = ⟨h, h * 10000, xm + m * (-1), xM + m, ym + m * (-1), yM + m⟩ := by
  unfold hexagonsInit
  rw [if_pos hm]
  rfl

lemma haBox_eq : haBox = ⟨1, 10000, 0, 100, 0, 100⟩ := by
  unfold haBox
  rw [hexagonsInit_nonpos _ _ _ _ _ _ le_rfl]
  norm_num [HexagonsState.mk.injEq]

lemma tinyBox_eq : tinyBox = ⟨1 / 10 ^ 14, 1 / 10 ^ 14 * 10000, 0, 100, 0, 100⟩ := by
  unfold tinyBox
  rw [hexagonsInit_nonpos _ _ _ _ _ _ le_rfl]

lemma sideLen_tiny : sideLen ((1 : ℝ) / 10 ^ 14 * 10000) = 0 :=
  sideLen_eq_zero _ (by norm_num)

/-- At `hectare = 10 ^ (-14)` the rounded side length is `0.0`, the
pitch is `0`, and the row loop never terminates. -/
lemma tiny_stuck : ∀ fuel, sideBySide tinyBox tinyBox.xMin tinyBox.yMax tinyBox.xMax fuel = none := by
  apply sideBySide_stuck
  · rw [tinyBox_eq]
    exact sideLen_tiny
  · rw [tinyBox_eq]
    norm_num

/-- For a 1-hectare cell and an `end_x` within one pitch of the start,
the row loop stops after one iteration, emitting two hexagons. -/
lemma sideBySide_two (st : HexagonsState) (hsm : st.squareMetre = 10000) (sx sy ex : ℝ)
    (hex : ex < sx + 620403 / 10000 * (Real.sqrt 3 / 2) + Real.sqrt 3 * (620403 / 10000)) :
    sideBySide st sx sy ex 2 =
      some [hexRing 10000 sx sy,
            translateHex (hexRing 10000 sx sy) (Real.sqrt 3 * (620403 / 10000)) 0] := by
  show sbsAux (sbsXOff (hexRing st.squareMetre sx sy)) ex 2 [hexRing st.squareMetre sx sy] = _
  rw [hsm, sbsXOff_hexRing, sideLen_1ha, sbsAux_succ]
  simp only [List.headD_cons]
  rw [if_pos]
  · simp
  · rw [xMaxOf_translate _ _ _ (hexRing_ne_nil _ _ _), xMaxOf_hexRing, sideLen_1ha]
    linarith

lemma haBox_squareMetre : haBox.squareMetre = 10000 := by rw [haBox_eq]

lemma sideLen_haBox_pos : 0 < sideLen haBox.squareMetre := by
  rw [haBox_squareMetre, sideLen_1ha]
  norm_num

/-- The tessellation of the concrete scenario stops after one loop
iteration: the second hexagon already passes `x = 100`. -/
lemma sideBySide_1ha :
    sideBySide haBox 0 100 100 2 =
      some [hexRing 10000 0 100,
            translateHex (hexRing 10000 0 100) (Real.sqrt 3 * (620403 / 10000)) 0] :=
  sideBySide_two haBox haBox_squareMetre 0 100 100 (by nlinarith [sqrt3_gt])

/-- On the concrete 1-hectare scenario the constructor stops with
`TypeError` at fuel 2. -/
lemma haBox_type_error : createHexagonsGdf haBox 2 = some (Except.error PyErr.typeError) := by
  have h1 : haBox.xMin = 0 := by rw [haBox_eq]
  have h2 : haBox.yMax = 100 := by rw [haBox_eq]
  have h3 : haBox.xMax = 100 := by rw [haBox_eq]
  have hsbs : sideBySide haBox haBox.xMin haBox.yMax haBox.xMax 2 =
      some [hexRing 10000 0 100,
            translateHex (hexRing 10000 0 100) (Real.sqrt 3 * (620403 / 10000)) 0] := by
    rw [h1, h2, h3]
    exact sideBySide_1ha
  exact createHexagonsGdf_err haBox 2 _ hsbs

lemma gridLoopAux_succ (yOff yMinBound : ℝ) (fuel : ℕ) (uppers lowers : List Row) :
    gridLoopAux yOff yMinBound (fuel + 1) uppers lowers =
      if rowHeadYMin (moveDownRow (uppers.getLastD []) yOff) < yMinBound
      then some (uppers ++ [moveDownRow (uppers.getLastD []) yOff], lowers)
      else if rowHeadYMin (moveDownRow (lowers.getLastD []) yOff) < yMinBound
        then some (uppers ++ [moveDownRow (uppers.getLastD []) yOff],
                   lowers ++ [moveDownRow (lowers.getLastD []) yOff])
        else gridLoopAux yOff yMinBound fuel
               (uppers ++ [moveDownRow (uppers.getLastD []) yOff])
               (lowers ++ [moveDownRow (lowers.getLastD []) yOff]) := rfl

lemma moveDownRow_headD (r : Row) (yOff : ℝ) :
    (moveDownRow r yOff).headD [] = translateHex (r.headD []) 0 yOff := by
  cases r with
  | nil => rfl
  | cons hx rest => rfl

lemma rowHeadYMin_moveDown (r : Row) (yOff : ℝ) (h : r.headD [] ≠ []) :
    rowHeadYMin (moveDownRow r yOff) = rowHeadYMin r + yOff := by
  unfold rowHeadYMin
  rw [moveDownRow_headD]
  exact yMinOf_translate _ _ _ h

lemma getLastD_append_singleton {α : Type} (l : List α) (a d : α) :
    (l ++ [a]).getLastD d = a := by
  induction l with
  | nil => rfl
  | cons x xs ih =>
    cases xs with
    | nil => rfl
    | cons y ys => simpa using ih

/-- Once the vertical drop has pushed the newest upper row below
`y_min`, the downward row-copy loop stops. -/
lemma gridLoopAux_term (yOff yMinBound : ℝ) :
    ∀ (n : ℕ) (uppers lowers : List Row),
      (uppers.getLastD []).headD [] ≠ [] →
      rowHeadYMin (uppers.getLastD []) + ((n : ℝ) + 1) * yOff < yMinBound →
      (gridLoopAux yOff yMinBound (n + 1) uppers lowers).isSome := by
  intro n
  induction n with
  | zero =>
    intro ups lows hne hlt
    rw [gridLoopAux_succ, if_pos]
    · simp
    · rw [rowHeadYMin_moveDown _ _ hne]
      push_cast at hlt
      linarith
  | succ m ih =>
    intro ups lows hne hlt
    rw [gridLoopAux_succ]
    by_cases h1 : rowHeadYMin (moveDownRow (ups.getLastD []) yOff) < yMinBound
    · rw [if_pos h1]
      simp
    · rw [if_neg h1]
      by_cases h2 : rowHeadYMin (moveDownRow (lows.getLastD []) yOff) < yMinBound
      · rw [if_pos h2]
        simp
      · rw [if_neg h2]
        apply ih
        · rw [getLastD_append_singleton, moveDownRow_headD]
          exact translateHex_ne_nil _ _ _ hne
        · rw [getLastD_append_singleton, rowHeadYMin_moveDown _ _ hne]
          push_cast at hlt ⊢
          linarith

/-- A strictly negative drop makes the row-copy loop terminate. -/
lemma gridLoop_terminates (yOff yMinBound : ℝ) (hneg : yOff < 0)
    (uppers lowers : List Row) (hne : (uppers.getLastD []).headD [] ≠ []) :
    ∃ fuel, (gridLoopAux yOff yMinBound fuel uppers lowers).isSome := by
  obtain ⟨n, hn⟩ := exists_nat_gt ((yMinBound - rowHeadYMin (uppers.getLastD [])) / yOff)
  refine ⟨n + 1, gridLoopAux_term yOff yMinBound n uppers lowers hne ?_⟩
  rw [div_lt_iff_of_neg hneg] at hn
  nlinarith

/-- With both rows non-empty, the drift-correcting fit fails in its
first pairing step: `geom_disassembly(base[0], 'point')` is `None` and
`None[base_corner]` raises `TypeError`. -/
lemma fit_err (base shift : List Hexagon) (fuel : ℕ) (hb : base ≠ []) (hs : shift ≠ []) :
    fit base shift (fuel + 1) = some (Except.error PyErr.typeError) := by
  obtain ⟨b, bs, rfl⟩ := List.exists_cons_of_ne_nil hb
  obtain ⟨s, ss, rfl⟩ := List.exists_cons_of_ne_nil hs
  simp [fit, fitAux, pyIndexPoint, geomDisassembly, dictGet, responseFuncs, pointKey]

/-- C1 (code bug): the specification's concrete scenario
`make_tessellation(hectare = 1.0, BoundingBox(0, 0, 100, 100), margin = 0)`
does not return a tessellation with `row_index` reaching 2: the
constructor raises `TypeError`, because every internal
`geom_disassembly(poly, 'point')` call passes the string `'point'` to a
dispatch dictionary keyed by the integers 0-9, obtaining `None`, which
`_lsbs_x_off` then subscripts. -/
theorem concrete_scenario_raises_type_error :
    regularHexagonGdf 1 0 0 100 100 0 2 = some (Except.error PyErr.typeError) := by
  show createHexagonsGdf haBox 2 = some (Except.error PyErr.typeError)
  exact haBox_type_error

/-- C2 counterexample: the claim quantifies over every finite
`hectare > 0`, but at `hectare = 10 ^ (-14)` (bounding box
`(0, 0, 100, 100)`) no `TypeError` is ever raised: the rounded side
length is `0.0`, the pitch is `0`, and the row-extension loop never
terminates, so the constructor produces nothing at all. -/
theorem tiny_hectare_no_type_error :
    ¬ ∃ fuel, createHexagonsGdf tinyBox fuel = some (Except.error PyErr.typeError) := by
  rintro ⟨fuel, hf⟩
  rw [createHexagonsGdf_none tinyBox tiny_stuck fuel] at hf
  exact Option.noConfusion hf

/-- C2 (amended): for every `hectare > 0` whose rounded side length
`round(sqrt(hectare * 10 ^ 4 / (1.5 * sqrt 3)), 4)` is positive, and for
every bounding box, `create_hexagons_gdf` raises `TypeError` before
producing any tessellation: `geom_disassembly(poly, 'point')` dispatches
on a dictionary keyed by the integers 0-9, returns `None`, and the
caller `_lsbs_x_off` subscripts that `None`. -/
theorem every_run_raises_type_error (h xm ym xM yM : ℝ) (_hh : 0 < h)
    (hside : 0 < sideLen (hexagonsInit h xm ym xM yM 0).squareMetre) :
    ∃ fuel, createHexagonsGdf (hexagonsInit h xm ym xM yM 0) fuel
      = some (Except.error PyErr.typeError) := by
  obtain ⟨fuel, hf⟩ := sideBySide_terminates (hexagonsInit h xm ym xM yM 0)
    (hexagonsInit h xm ym xM yM 0).xMin (hexagonsInit h xm ym xM yM 0).yMax
    (hexagonsInit h xm ym xM yM 0).xMax hside
  obtain ⟨l, hl⟩ := Option.isSome_iff_exists.mp hf
  exact ⟨fuel, createHexagonsGdf_err _ fuel l hl⟩

/-- C2 witness: the amended statement holds at `hectare = 1` over the
box `(0, 0, 100, 100)`. -/
theorem every_run_raises_type_error_witness :
    (0 : ℝ) < 1 ∧ 0 < sideLen (hexagonsInit 1 0 0 100 100 0).squareMetre ∧
    ∃ fuel, createHexagonsGdf (hexagonsInit 1 0 0 100 100 0) fuel
      = some (Except.error PyErr.typeError) :=
  ⟨by norm_num, sideLen_haBox_pos,
    every_run_raises_type_error 1 0 0 100 100 (by norm_num) sideLen_haBox_pos⟩

/-- C5 counterexample: the offset-row builder emits no list at all on
the concrete 1-hectare scenario (so in particular no list of length
base + 1): it raises `TypeError`. -/
theorem offset_row_no_output :
    ¬ ∃ l, lowerSideBySide haBox 0 100 100 2 = some (Except.ok l) := by
  rintro ⟨l, hl⟩
  rw [lowerSideBySide_err haBox 0 100 100 2 _ sideBySide_1ha] at hl
  simp at hl

/-- C5 (amended): whenever its base-row loop terminates, the offset-row
builder `_lower_side_by_side` raises `TypeError` instead of translating
the base row and prepending an extra hexagon: `_lsbs_x_off` subscripts
the `None` returned by `geom_disassembly(hexagons[0], 'point')` before
any translation happens. -/
theorem offset_row_type_error (st : HexagonsState) (sx sy ex : ℝ) (fuel : ℕ)
    (h : (sideBySide st sx sy ex fuel).isSome) :
    lowerSideBySide st sx sy ex fuel = some (Except.error PyErr.typeError) := by
  obtain ⟨l, hl⟩ := Option.isSome_iff_exists.mp h
  exact lowerSideBySide_err st sx sy ex fuel l hl

/-- C5 witness: the amended statement holds on the concrete 1-hectare
scenario. -/
theorem offset_row_type_error_witness :
    (sideBySide haBox 0 100 100 2).isSome ∧
    lowerSideBySide haBox 0 100 100 2 = some (Except.error PyErr.typeError) :=
  ⟨by rw [sideBySide_1ha]; rfl,
    offset_row_type_error haBox 0 100 100 2 (by rw [sideBySide_1ha]; rfl)⟩

/-- C6 counterexample: with a base row of two hexagons and a shift row
of one, the base row is at least as long as the shift row, yet the
selected reference corner is `2`, not `4` as the claim states — the
source condition is `len(base) <= len(shift)`, the reverse of the
claim. -/
theorem fit_corner_selection_cex :
    ([hexRing 10000 0 0, hexRing 10000 0 0] : List Hexagon).length
      ≥ ([hexRing 10000 0 0] : List Hexagon).length
    ∧ fitBaseCorner [hexRing 10000 0 0, hexRing 10000 0 0] [hexRing 10000 0 0] ≠ 4 := by
  constructor
  · simp
  · show (if (2 : ℕ) ≤ 1 then 4 else 2) ≠ 4
    norm_num

/-- C6 (amended): the reference corner index is `4` exactly when the
shift row is at least as long as the base row (`len(base) <= len(shift)`),
else `2`; and the element-by-element pairing phase never reads any
corner: with both rows non-empty the first iteration raises `TypeError`,
because `geom_disassembly(base[0], 'point')` returns `None` and the code
subscripts it with the corner index. -/
theorem fit_corner_selection (base shift : List Hexagon) (fuel : ℕ) :
    (fitBaseCorner base shift = 4 ↔ base.length ≤ shift.length)
    ∧ (base ≠ [] → shift ≠ [] →
        fit base shift (fuel + 1) = some (Except.error PyErr.typeError)) := by
  constructor
  · unfold fitBaseCorner
    by_cases hc : base.length ≤ shift.length
    · rw [if_pos hc]
      simp [hc]
    · rw [if_neg hc]
      simp [hc]
  · intro hb hs
    exact fit_err base shift fuel hb hs

/-- C6 witness: the amended statement at a base row of one hexagon and
a shift row of two. -/
theorem fit_corner_selection_witness :
    (fitBaseCorner [hexRing 10000 0 0] [hexRing 10000 0 0, hexRing 10000 0 0] = 4
      ↔ ([hexRing 10000 0 0] : List Hexagon).length
          ≤ ([hexRing 10000 0 0, hexRing 10000 0 0] : List Hexagon).length)
    ∧ fit [hexRing 10000 0 0] [hexRing 10000 0 0, hexRing 10000 0 0] 1
        = some (Except.error PyErr.typeError) :=
  ⟨(fit_corner_selection [hexRing 10000 0 0] [hexRing 10000 0 0, hexRing 10000 0 0] 0).1,
    (fit_corner_selection [hexRing 10000 0 0] [hexRing 10000 0 0, hexRing 10000 0 0] 0).2
      (by simp) (by simp)⟩

/-- C10 (confirmed): for every margin that is not strictly positive the
constructor stores `x_min, y_min, x_max, y_max` exactly as passed and
raises nothing; and for every margin whatsoever, `hectare` and
`square_metre = hectare * 10_000` are unaffected by the margin. -/
theorem init_margin_frame (h xm ym xM yM m : ℝ) :
    (m ≤ 0 → hexagonsInit h xm ym xM yM m = ⟨h, h * 10000, xm, xM, ym, yM⟩)
    ∧ (hexagonsInit h xm ym xM yM m).hectare = h
    ∧ (hexagonsInit h xm ym xM yM m).squareMetre = h * 10000 := by
  refine ⟨fun hm => hexagonsInit_nonpos _ _ _ _ _ _ hm, ?_, ?_⟩
  all_goals
    rcases le_or_lt m 0 with hm | hm
    · rw [hexagonsInit_nonpos _ _ _ _ _ _ hm]
    · rw [hexagonsInit_pos _ _ _ _ _ _ hm]

/-- C10 witness: at `margin = -1` the bounds are stored unchanged, and
at `margin = 7` the hectare and square-metre fields are still the
same. -/
theorem init_margin_frame_witness :
    hexagonsInit 1 2 3 4 5 (-1) = ⟨1, 1 * 10000, 2, 4, 3, 5⟩
    ∧ (hexagonsInit 1 2 3 4 5 7).hectare = 1
    ∧ (hexagonsInit 1 2 3 4 5 7).squareMetre = 1 * 10000 :=
  ⟨(init_margin_frame 1 2 3 4 5 (-1)).1 (by norm_num),
    (init_margin_frame 1 2 3 4 5 7).2.1,
    (init_margin_frame 1 2 3 4 5 7).2.2⟩

/-- C9 counterexample: `square_metres = 10 ^ (-10) > 0` with the valid
box `(0, 0, 100, 100)` satisfies every hypothesis of the claim, yet the
row-extension loop of `_side_by_side` does not terminate: the rounded
side length is `0.0`, so the pitch is `0` and the rightmost x never
grows. -/
theorem tiny_row_loop_nonterminating :
    (0 : ℝ) < tinyBox.squareMetre ∧ tinyBox.xMin < tinyBox.xMax
    ∧ tinyBox.yMin < tinyBox.yMax
    ∧ ¬ ∃ fuel, (sideBySide tinyBox tinyBox.xMin tinyBox.yMax tinyBox.xMax fuel).isSome := by
  refine ⟨?_, ?_, ?_, ?_⟩
  · rw [tinyBox_eq]
    norm_num
  · rw [tinyBox_eq]
    norm_num
  · rw [tinyBox_eq]
    norm_num
  · rintro ⟨fuel, hf⟩
    rw [tiny_stuck fuel] at hf
    simp at hf

/-- C9 (amended): the row-extension loop terminates under the claim's
hypotheses provided additionally the rounded side length
`round(sqrt(square_metres / (1.5 * sqrt 3)), 4)` is positive (for
smaller areas it rounds to 0 and the loop spins); and the downward
row-copy loop terminates for every strictly negative per-step drop,
each iteration strictly decreasing the minimum y of the newest row.
(In the program as shipped the drop computation itself raises
`TypeError` before this loop is reached.) -/
theorem loops_terminate :
    (∀ (st : HexagonsState) (sx sy ex : ℝ), 0 < st.squareMetre →
      st.xMin < st.xMax → st.yMin < st.yMax → 0 < sideLen st.squareMetre →
      ∃ fuel, (sideBySide st sx sy ex fuel).isSome)
    ∧ (∀ (yOff yMinBound : ℝ) (uppers lowers : List Row), yOff < 0 →
        (uppers.getLastD []).headD [] ≠ [] →
        ∃ fuel, (gridLoopAux yOff yMinBound fuel uppers lowers).isSome) := by
  constructor
  · intro st sx sy ex _ _ _ hside
    exact sideBySide_terminates st sx sy ex hside
  · intro yOff yMinBound ups lows hneg hne
    exact gridLoop_terminates yOff yMinBound hneg ups lows hne

/-- C9 witness: both amended termination statements hold at the
concrete 1-hectare scenario (and, for the row-copy loop, at drop `-1`
from a single one-hexagon row). -/
theorem loops_terminate_witness :
    ((0 : ℝ) < haBox.squareMetre ∧ haBox.xMin < haBox.xMax ∧ haBox.yMin < haBox.yMax
      ∧ 0 < sideLen haBox.squareMetre
      ∧ ∃ fuel, (sideBySide haBox 0 100 100 fuel).isSome)
    ∧ ((-1 : ℝ) < 0
      ∧ ((([[hexRing 10000 0 100]] : List Row).getLastD []).headD []) ≠ []
      ∧ ∃ fuel, (gridLoopAux (-1) 0 fuel [[hexRing 10000 0 100]] []).isSome) := by
  have hb1 : (0 : ℝ) < haBox.squareMetre := by
    rw [haBox_squareMetre]
    norm_num
  have hb2 : haBox.xMin < haBox.xMax := by
    rw [haBox_eq]
    norm_num
  have hb3 : haBox.yMin < haBox.yMax := by
    rw [haBox_eq]
    norm_num
  have hlast : (([[hexRing 10000 0 100]] : List Row).getLastD []).headD []
      = hexRing 10000 0 100 := by
    simp
  have hne : ((([[hexRing 10000 0 100]] : List Row).getLastD []).headD []) ≠ [] := by
    rw [hlast]
    exact hexRing_ne_nil _ _ _
  exact ⟨⟨hb1, hb2, hb3, sideLen_haBox_pos,
      loops_terminate.1 haBox 0 100 100 hb1 hb2 hb3 sideLen_haBox_pos⟩,
    ⟨by norm_num, hne,
      loops_terminate.2 (-1) 0 [[hexRing 10000 0 100]] [] (by norm_num) hne⟩⟩

end
